import Mathlib

/-!
# Verification of the google-cloud-mldiagnostics metric pipeline

Shallow embedding of the two source files

* `src/google_cloud_mldiagnostics/api/metrics.py` (`record_metrics`), and
* `src/google_cloud_mldiagnostics/clients/logging_client.py`
  (`LoggingClient.write_metrics`),

together with proofs of the testable properties of the specification
(step precedence and backfill, scalar wrapping, accelerator-label
derivation, label flattening, skip-on-bad-shape, batch atomicity,
reported counts, shared timestamps).
-/

namespace MLDiag

/-- A Python runtime value, restricted to the shapes that flow through the
metric pipeline: `int`, `float` (carried opaquely, no arithmetic is ever
performed on it), `str`, `list`, a string-to-string `dict` (the `labels`
maps), a `MetricType` enum member (whose `.value` attribute is its canonical
string), and `None`. -/
inductive PyVal where
  | intV (n : Int)
  | floatV (q : ℚ)
  | strV (s : String)
  | listV (xs : List PyVal)
  | dictV (entries : List (String × String))
  | enumV (value : String)
  | noneV

/-- A Python `dict` with string keys and heterogeneous values, as an
insertion-ordered association list (Python dicts preserve insertion order
and hold each key at most once). -/
abbrev PyDict := List (String × PyVal)

/-- `d.get(k)` / `k in d`: the value at key `k`, `none` if the key is absent.
(A Python dict holds each key once; on the association list this reads the
first, i.e. only, occurrence.) -/
def dictGet (d : PyDict) (k : String) : Option PyVal :=
  match d with
  | [] => Option.none
  | (k', v) :: rest => if k' = k then some v else dictGet rest k

/-- `d[k] = v`: Python dict assignment.  An existing key keeps its position
and gets the new value; a new key is appended at the end (insertion
order). -/
def dictSet (d : PyDict) (k : String) (v : PyVal) : PyDict :=
  match d with
  | [] => [(k, v)]
  | (k', v') :: rest =>
      if k' = k then (k, v) :: rest else (k', v') :: dictSet rest k v

/-- `d.update(es)`: Python `dict.update`, assigning each key/value pair of
`es` in order (`payload.update(labels)`, line 171; label values are
strings). -/
def dictUpdate (d : PyDict) (es : List (String × String)) : PyDict :=
  es.foldl (fun p kv => dictSet p kv.1 (PyVal.strV kv.2)) d

/-- Lookup in a string-to-string label dict (`labels[k]` / `k in labels`). -/
def labelsGet (es : List (String × String)) (k : String) : Option String :=
  match es with
  | [] => Option.none
  | (k', v) :: rest => if k' = k then some v else labelsGet rest k

/- ## `api/metrics.py`: `record_metrics` normalization -/

/-- Lines 90–92 of `api/metrics.py`: if `metric_info.get("metric_name")` is
a `MetricType` enum instance, `metric_info["metric_name"]` is overwritten
(in place) with that instance's `.value` string; any other name — including
an absent key — passes through untouched. -/
def unwrapMetricName (m : PyDict) : PyDict :=
  match dictGet m "metric_name" with
  | some (PyVal.enumV v) => dictSet m "metric_name" (PyVal.strV v)
  | _ => m

/-- Lines 93–94 of `api/metrics.py`: if a batch default `step` was given
(`step is not None`) and the dict has no `"step"` key
(`"step" not in metric_info`), the default is written (in place) into the
dict. -/
def backfillStep (step : Option Int) (m : PyDict) : PyDict :=
  match step with
  | some s =>
      if (dictGet m "step").isNone then dictSet m "step" (PyVal.intV s)
      else m
  | Option.none => m

/-- One iteration of the loop body of `record_metrics`
(`api/metrics.py`, lines 89–95), acting on one `metric_info` dict.
Both component writes are in-place mutations of the caller's dict in the
source. -/
def processMetricInfo (step : Option Int) (m : PyDict) : PyDict :=
  backfillStep step (unwrapMetricName m)

/-- `record_metrics` (`api/metrics.py`, lines 60–97) restricted to its
normalization phase: the `processed_metrics_data` list it hands to the
recording backend.  Each element is the caller's dict after the in-place
processing of `processMetricInfo`. -/
def record_metrics (step : Option Int) (metrics_data : List PyDict) :
    List PyDict :=
  metrics_data.map (processMetricInfo step)

/-- The state of the caller-supplied `metrics_data` dicts after
`record_metrics` returns.  The loop mutates each `metric_info` dict in place
(`metric_info["metric_name"] = ...`, `metric_info["step"] = step`) and
appends that same object to `processed_metrics_data`, so after the call the
caller's list holds exactly the processed dicts. -/
def metrics_data_after (step : Option Int) (metrics_data : List PyDict) :
    List PyDict :=
  metrics_data.map (processMetricInfo step)

/- ## `clients/logging_client.py`: `LoggingClient.write_metrics` -/

/-- The monitored-resource descriptor built for one metric
(`logging_client.py`, lines 134–142): a `generic_node` resource whose labels
carry the project id, the run location, the metric name (as namespace) and
the run id (as node id).  `nsLabel` holds the raw `metric["metric_name"]`
object, which in well-formed input is a string. -/
structure Resource where
  resType : String
  project_id : String
  location : String
  nsLabel : PyVal
  node_id : String

/-- One structured log entry as handed to `batch.log_struct`
(`logging_client.py`, lines 173–178): the payload dict, the severity, the
batch timestamp (an opaque instant, modelled as a natural number) and the
resource descriptor. -/
structure LogEntry where
  payload : PyDict
  severity : String
  timestamp : Nat
  resource : Resource

/-- Python truthiness of the shapes that can appear as `labels`
(`if labels:` at lines 157–158 and 170): `None` and an empty dict are
falsy, a non-empty dict is truthy. -/
def pyTruthy : PyVal → Bool
  | PyVal.noneV => false
  | PyVal.dictV es => !es.isEmpty
  | PyVal.strV s => !s.isEmpty
  | PyVal.listV xs => !xs.isEmpty
  | PyVal.intV n => n != 0
  | PyVal.floatV q => q != 0
  | PyVal.enumV _ => true

/-- The value-shape normalization of `write_metrics` (lines 144–154): an
`int` or `float` scalar is wrapped into a one-element list, a `list` passes
through unchanged (its elements are not inspected), and any other type is
unsupported (`none` here; the source logs a warning and `continue`s). -/
def normalizeValues : PyVal → Option (List PyVal)
  | PyVal.intV n => some [PyVal.intV n]
  | PyVal.floatV q => some [PyVal.floatV q]
  | PyVal.listV xs => some xs
  | _ => Option.none

/-- The `is None` identity test (`if step is not None`, line 168). -/
def pyIsNone : PyVal → Bool
  | PyVal.noneV => true
  | _ => false

/-- Lines 157–166: if `labels` is a truthy dict containing both
`"hostname"` and `"accelerator_type"`, assign
`payload["accelerator_labels"]` the list of strings
`"{hostname}-{accelerator_type}{i}"`, one per index `i` into the values
list (0-based position of the sample within this record's values array). -/
def acceleratorStage (payload_values : List PyVal) (labels : PyVal)
    (payload : PyDict) : PyDict :=
  match labels with
  | PyVal.dictV es =>
    if pyTruthy (PyVal.dictV es)
        && (labelsGet es "hostname").isSome
        && (labelsGet es "accelerator_type").isSome then
      dictSet payload "accelerator_labels"
        (PyVal.listV ((List.range payload_values.length).map
          (fun i => PyVal.strV ((labelsGet es "hostname").getD "" ++ "-"
            ++ (labelsGet es "accelerator_type").getD "" ++ toString i))))
    else payload
  | _ => payload

/-- Lines 168–169: if `step is not None`, assign
`payload["step_index"] = step`. -/
def stepStage (step : PyVal) (payload : PyDict) : PyDict :=
  if !(pyIsNone step) then dictSet payload "step_index" step else payload

/-- Lines 170–171: if `labels` is truthy, `payload.update(labels)` — every
label key/value pair is assigned into the payload, last, so a label key
colliding with a derived key overwrites it. -/
def labelsStage (labels : PyVal) (payload : PyDict) : PyDict :=
  match labels with
  | PyVal.dictV es =>
    if pyTruthy (PyVal.dictV es) then dictUpdate payload es else payload
  | _ => payload

/-- Lines 155–171: the full payload built for one accepted record, from its
normalized values list and its raw `step` and `labels` objects. -/
def payloadOf (payload_values : List PyVal) (step labels : PyVal) : PyDict :=
  labelsStage labels
    (stepStage step
      (acceleratorStage payload_values labels
        [("values", PyVal.listV payload_values)]))

/-- The body of the `for metric in metrics` loop of `write_metrics`
(`logging_client.py`, lines 128–178) for one metric dict.  Returns

* `Except.error` for the `KeyError` raised by `metric["metric_name"]` or
  `metric["value"]` when the key is absent (propagated to the outer
  `try`/`except`),
* `Except.ok Option.none` when the record is skipped (`continue`) because
  its value is neither `int`/`float` nor `list` (lines 148–154), and
* `Except.ok (some entry)` with the entry passed to `batch.log_struct`
  otherwise. -/
def buildEntry (project_id run_id location : String) (currentTime : Nat)
    (metric : PyDict) : Except String (Option LogEntry) :=
  match dictGet metric "metric_name" with
  | Option.none => Except.error "KeyError: metric_name"
  | some metric_name =>
    match dictGet metric "value" with
    | Option.none => Except.error "KeyError: value"
    | some value =>
      let step := (dictGet metric "step").getD PyVal.noneV
      let labels := (dictGet metric "labels").getD PyVal.noneV
      let metric_resource : Resource :=
        { resType := "generic_node"
          project_id := project_id
          location := location
          nsLabel := metric_name
          node_id := run_id }
      match normalizeValues value with
      | Option.none => Except.ok Option.none
      | some payload_values =>
        Except.ok (some
          { payload := payloadOf payload_values step labels
            severity := "INFO"
            timestamp := currentTime
            resource := metric_resource })

/-- The accumulation phase of `write_metrics`: the list of entries appended
to the open batch scope, in order, by iterating `buildEntry` over the
metrics.  A `KeyError` from any iteration aborts the loop (the exception
propagates out of the `with` block); a skipped record contributes no
entry. -/
def buildEntries (project_id run_id location : String) (currentTime : Nat) :
    List PyDict → Except String (List LogEntry)
  | [] => Except.ok []
  | m :: ms =>
    match buildEntry project_id run_id location currentTime m with
    | Except.error e => Except.error e
    | Except.ok e? =>
      match buildEntries project_id run_id location currentTime ms with
      | Except.error e => Except.error e
      | Except.ok rest =>
        Except.ok (match e? with
          | some e => e :: rest
          | Option.none => rest)

/-- `LoggingClient.write_metrics` (`logging_client.py`, lines 108–183).
`currentTime` is the single `datetime.now` captured at line 126 before the
batch is opened; `flushOk` is the behaviour of the external log sink when
the batch scope flushes on exit from the `with` block.  On success the
result carries the flushed entries together with the count reported by the
`logger.info` call at line 179, which is `len(metrics)`.  Any exception —
a `KeyError` during entry construction or a sink failure at flush — is
wrapped by the `except` clause (lines 180–183) into a single
`MLDiagnosticError` whose message prefixes the underlying cause. -/
def write_metrics (project_id : String) (metrics : List PyDict)
    (run_id location : String) (currentTime : Nat) (flushOk : Bool) :
    Except String (List LogEntry × Nat) :=
  match buildEntries project_id run_id location currentTime metrics with
  | Except.error e =>
      Except.error ("Failed to write metrics batch to Cloud Logging: " ++ e)
  | Except.ok entries =>
      if flushOk then Except.ok (entries, metrics.length)
      else Except.error
        ("Failed to write metrics batch to Cloud Logging: " ++ "flush failed")

/-- Modelled from the spec: the library-side batch scope
(`self.logger.batch()`, an external collaborator whose code is not in this
repository) flushes all accumulated entries as one call on successful exit
and discards them on abnormal exit, so entries are observably persisted
exactly when `write_metrics` returns successfully (§4.4, §6 of the
specification). -/
def persistedEntries (r : Except String (List LogEntry × Nat)) :
    List LogEntry :=
  match r with
  | Except.ok (entries, _) => entries
  | Except.error _ => []

/-- The count announced by the `logger.info` call on success (`none` when
the call failed before reaching it). -/
def reportedCount (r : Except String (List LogEntry × Nat)) : Option Nat :=
  match r with
  | Except.ok (_, n) => some n
  | Except.error _ => Option.none

/-- Stated from the claim's words, for comparison with the source's shape
test (`normalizeValues`): a numeric scalar (integer or floating point). -/
def isNumericScalar : PyVal → Bool
  | PyVal.intV _ => true
  | PyVal.floatV _ => true
  | _ => false

/-- Stated from the claim's words, for comparison with the source's shape
test: a sequence all of whose elements are numeric scalars. -/
def isNumericScalarSeq : PyVal → Bool
  | PyVal.listV xs => xs.all (fun x => isNumericScalar x)
  | _ => false

/-- The payload of a `buildEntry` result that produced an entry (empty dict
when the record was skipped or errored). -/
def entryPayload (r : Except String (Option LogEntry)) : PyDict :=
  match r with
  | Except.ok (some e) => e.payload
  | _ => []

/-- The single entry produced by the batch
`[{"metric_name": "m", "value": 1}]` under project `"p"`, run `"r"`,
location `"l"` at capture time `42`. -/
def sampleEntry : LogEntry :=
  { payload := [("values", PyVal.listV [PyVal.intV 1])]
    severity := "INFO"
    timestamp := 42
    resource :=
      { resType := "generic_node"
        project_id := "p"
        location := "l"
        nsLabel := PyVal.strV "m"
        node_id := "r" } }

/- ## Dictionary lemmas -/

theorem dictGet_dictSet_self (d : PyDict) (k : String) (v : PyVal) :
    dictGet (dictSet d k v) k = some v := by
  induction d with
  | nil => simp [dictGet, dictSet]
  | cons p rest ih =>
    obtain ⟨k', v'⟩ := p
    by_cases h : k' = k
    · subst h; simp [dictGet, dictSet]
    · simp [dictGet, dictSet, h, ih]

theorem dictGet_dictSet_ne (d : PyDict) (k : String) (v : PyVal) (k' : String)
    (h : k ≠ k') : dictGet (dictSet d k v) k' = dictGet d k' := by
  induction d with
  | nil => simp [dictGet, dictSet, h]
  | cons p rest ih =>
    obtain ⟨a, b⟩ := p
    by_cases ha : a = k
    · subst ha
      simp [dictGet, dictSet, h]
    · simp only [dictSet, if_neg ha]
      by_cases ha' : a = k'
      · simp [dictGet, ha']
      · simp [dictGet, ha', ih]

theorem labelsGet_eq_none_iff (es : List (String × String)) (k : String) :
    labelsGet es k = Option.none ↔ k ∉ es.map Prod.fst := by
  induction es with
  | nil => simp [labelsGet]
  | cons p rest ih =>
    obtain ⟨a, b⟩ := p
    by_cases ha : a = k
    · subst ha; simp [labelsGet]
    · simp [labelsGet, ha, ih, Ne.symm ha]

theorem labelsGet_isEmpty_false {es : List (String × String)} {k : String}
    {v : String} (h : labelsGet es k = some v) : es.isEmpty = false := by
  cases es with
  | nil => simp [labelsGet] at h
  | cons p rest => rfl

theorem dictGet_dictUpdate_notMem (d : PyDict)
    {es : List (String × String)} {k : String}
    (h : labelsGet es k = Option.none) :
    dictGet (dictUpdate d es) k = dictGet d k := by
  induction es generalizing d with
  | nil => rfl
  | cons p rest ih =>
    obtain ⟨a, b⟩ := p
    by_cases ha : a = k
    · simp [labelsGet, ha] at h
    · simp only [labelsGet, if_neg ha] at h
      show dictGet (dictUpdate (dictSet d a (PyVal.strV b)) rest) k = _
      rw [ih _ h, dictGet_dictSet_ne _ _ _ _ ha]

theorem dictGet_dictUpdate_mem (d : PyDict)
    {es : List (String × String)} {k w : String}
    (hnd : (es.map Prod.fst).Nodup) (h : labelsGet es k = some w) :
    dictGet (dictUpdate d es) k = some (PyVal.strV w) := by
  induction es generalizing d with
  | nil => simp [labelsGet] at h
  | cons p rest ih =>
    obtain ⟨a, b⟩ := p
    simp only [List.map_cons, List.nodup_cons] at hnd
    by_cases ha : a = k
    · subst ha
      simp [labelsGet] at h
      subst h
      have hnone : labelsGet rest a = Option.none :=
        (labelsGet_eq_none_iff rest a).mpr hnd.1
      show dictGet (dictUpdate (dictSet d a (PyVal.strV b)) rest) a
          = some (PyVal.strV b)
      rw [dictGet_dictUpdate_notMem _ hnone, dictGet_dictSet_self]
    · simp only [labelsGet, if_neg ha] at h
      show dictGet (dictUpdate (dictSet d a (PyVal.strV b)) rest) k = _
      exact ih _ hnd.2 h

/- ## Normalization lemmas (`record_metrics`) -/

theorem dictGet_unwrapMetricName_ne (m : PyDict) (k : String)
    (h : k ≠ "metric_name") :
    dictGet (unwrapMetricName m) k = dictGet m k := by
  unfold unwrapMetricName
  split
  · exact dictGet_dictSet_ne _ _ _ _ (Ne.symm h)
  · rfl

theorem dictGet_backfillStep_ne (step : Option Int) (m : PyDict) (k : String)
    (h : k ≠ "step") :
    dictGet (backfillStep step m) k = dictGet m k := by
  unfold backfillStep
  cases step with
  | none => rfl
  | some s =>
    show dictGet
        (if (dictGet m "step").isNone then dictSet m "step" (PyVal.intV s)
         else m) k = dictGet m k
    by_cases hs : (dictGet m "step").isNone = true
    · rw [if_pos hs]
      exact dictGet_dictSet_ne _ _ _ _ (Ne.symm h)
    · rw [if_neg hs]

theorem dictGet_processMetricInfo_ne (step : Option Int) (m : PyDict)
    (k : String) (h1 : k ≠ "metric_name") (h2 : k ≠ "step") :
    dictGet (processMetricInfo step m) k = dictGet m k := by
  unfold processMetricInfo
  rw [dictGet_backfillStep_ne _ _ _ h2, dictGet_unwrapMetricName_ne _ _ h1]

/-- A pointwise-fixed map is the identity on a list. -/
theorem map_eq_self_of_fixed (f : PyDict → PyDict) (l : List PyDict)
    (hl : ∀ m ∈ l, f m = m) : l.map f = l := by
  induction l with
  | nil => rfl
  | cons a as ih =>
    simp only [List.map_cons, hl a (List.mem_cons_self a as)]
    rw [ih (fun m hm => hl m (List.mem_cons_of_mem a hm))]

/-- **C3** (step precedence): a normalized record that carries an explicit
record-level step `s` keeps it for every batch-level default `d`; the
per-record step is never overwritten by the default. -/
theorem C3_step_precedence (d s : Int) (m : PyDict)
    (h : dictGet m "step" = some (PyVal.intV s)) :
    dictGet (processMetricInfo (some d) m) "step" = some (PyVal.intV s) := by
  have hm1 : dictGet (unwrapMetricName m) "step" = some (PyVal.intV s) := by
    rw [dictGet_unwrapMetricName_ne _ _ (by decide), h]
  unfold processMetricInfo backfillStep
  show dictGet
      (if (dictGet (unwrapMetricName m) "step").isNone
       then dictSet (unwrapMetricName m) "step" (PyVal.intV d)
       else unwrapMetricName m) "step" = some (PyVal.intV s)
  rw [hm1]
  simpa using hm1

/-- Witness for `C3_step_precedence` at a concrete record. -/
theorem C3_step_precedence_witness :
    dictGet (processMetricInfo (some 1)
      [("metric_name", PyVal.strV "lr"), ("value", PyVal.intV 1),
       ("step", PyVal.intV 5)]) "step" = some (PyVal.intV 5) :=
  C3_step_precedence 1 5 _ rfl

/-- **C4** (default backfill): a record whose dict has no `step` key gets
the batch-level default when one is supplied, and keeps `step` absent when
none is supplied. -/
theorem C4_step_backfill (m : PyDict) (h : dictGet m "step" = Option.none) :
    (∀ d : Int, dictGet (processMetricInfo (some d) m) "step"
        = some (PyVal.intV d)) ∧
    dictGet (processMetricInfo Option.none m) "step" = Option.none := by
  have hm1 : dictGet (unwrapMetricName m) "step" = Option.none := by
    rw [dictGet_unwrapMetricName_ne _ _ (by decide), h]
  constructor
  · intro d
    unfold processMetricInfo backfillStep
    show dictGet
        (if (dictGet (unwrapMetricName m) "step").isNone
         then dictSet (unwrapMetricName m) "step" (PyVal.intV d)
         else unwrapMetricName m) "step" = some (PyVal.intV d)
    rw [hm1]
    simp [dictGet_dictSet_self]
  · exact hm1

/-- Witness for `C4_step_backfill` at a concrete record. -/
theorem C4_step_backfill_witness :
    dictGet (processMetricInfo (some 7) [("metric_name", PyVal.strV "loss")])
        "step" = some (PyVal.intV 7) ∧
    dictGet (processMetricInfo Option.none
        [("metric_name", PyVal.strV "loss")]) "step" = Option.none :=
  ⟨(C4_step_backfill [("metric_name", PyVal.strV "loss")] rfl).1 7,
   (C4_step_backfill [("metric_name", PyVal.strV "loss")] rfl).2⟩

/-- **C2**, counterexample: normalization is not a pure transform on the
caller's data.  The caller's dict `{"metric_name": "m", "value": 1}` has no
`step` key before the call, but after `record_metrics` with batch default
step `1` the (aliased, in-place mutated) dict carries `step = 1`, so the
caller-supplied dict does not come back unchanged. -/
theorem C2_purity_counterexample :
    dictGet [("metric_name", PyVal.strV "m"), ("value", PyVal.intV 1)] "step"
        = Option.none ∧
    dictGet ((metrics_data_after (some 1)
        [[("metric_name", PyVal.strV "m"), ("value", PyVal.intV 1)]]).headD
        []) "step" = some (PyVal.intV 1) ∧
    metrics_data_after (some 1)
        [[("metric_name", PyVal.strV "m"), ("value", PyVal.intV 1)]]
      ≠ [[("metric_name", PyVal.strV "m"), ("value", PyVal.intV 1)]] := by
  refine ⟨rfl, rfl, ?_⟩
  intro hEq
  exact Option.noConfusion
    (congrArg (fun l => dictGet (l.headD []) "step") hEq)

/-- **C2** amended: `record_metrics` mutates the caller-supplied dicts in
place (the processed list holds the very same dict objects); the only
modifications are the enum-name unwrap on the `metric_name` key and the
default-step backfill on the `step` key — every other key is untouched —
and a batch whose dicts need neither (no enum-typed name, and either no
batch default or a `step` key already present) comes back unchanged. -/
theorem C2_normalization_mutation (step : Option Int) (ms : List PyDict) :
    (∀ m ∈ ms, ∀ k, k ≠ "metric_name" → k ≠ "step" →
        dictGet (processMetricInfo step m) k = dictGet m k) ∧
    ((∀ m ∈ ms,
        (∀ v : String, dictGet m "metric_name" ≠ some (PyVal.enumV v)) ∧
        (step = Option.none ∨ (dictGet m "step").isSome)) →
      metrics_data_after step ms = ms ∧ record_metrics step ms = ms) := by
  constructor
  · intro m _ k h1 h2
    exact dictGet_processMetricInfo_ne step m k h1 h2
  · intro hc
    have key : ∀ m ∈ ms, processMetricInfo step m = m := by
      intro m hm
      obtain ⟨henum, hstep⟩ := hc m hm
      have hunwrap : unwrapMetricName m = m := by
        unfold unwrapMetricName
        split
        · rename_i v heq
          exact absurd heq (henum v)
        · rfl
      unfold processMetricInfo
      rw [hunwrap]
      unfold backfillStep
      cases step with
      | none => rfl
      | some s =>
        rcases hstep with hstep | hstep
        · exact absurd hstep (by simp)
        · show (if (dictGet m "step").isNone
              then dictSet m "step" (PyVal.intV s) else m) = m
          rw [if_neg (fun hn => by
            rw [Option.isNone_iff_eq_none] at hn
            rw [hn] at hstep
            exact Bool.noConfusion hstep)]
    exact ⟨map_eq_self_of_fixed _ ms key, map_eq_self_of_fixed _ ms key⟩

/-- Witness for `C2_normalization_mutation` at concrete inputs: untouched
keys are preserved, and a batch needing no unwrap/backfill is returned
unchanged. -/
theorem C2_normalization_mutation_witness :
    dictGet (processMetricInfo (some 1)
        [("metric_name", PyVal.strV "m"), ("value", PyVal.intV 2)]) "value"
      = some (PyVal.intV 2) ∧
    metrics_data_after (some 1)
        [[("metric_name", PyVal.strV "m"), ("step", PyVal.intV 3)]]
      = [[("metric_name", PyVal.strV "m"), ("step", PyVal.intV 3)]] := by
  constructor
  · have h := (C2_normalization_mutation (some 1)
      [[("metric_name", PyVal.strV "m"), ("value", PyVal.intV 2)]]).1
    exact (h _ (List.mem_singleton.mpr rfl) "value" (by decide) (by decide)
      ).trans rfl
  · have h := (C2_normalization_mutation (some 1)
      [[("metric_name", PyVal.strV "m"), ("step", PyVal.intV 3)]]).2
    refine (h ?_).1
    intro m hm
    rw [List.mem_singleton] at hm
    subst hm
    exact ⟨fun v hv => by simp [dictGet] at hv, Or.inr rfl⟩

/- ## Payload-stage lemmas (`write_metrics`) -/

theorem dictGet_acceleratorStage_ne (pvs : List PyVal) (labels : PyVal)
    (p : PyDict) (k : String) (h : k ≠ "accelerator_labels") :
    dictGet (acceleratorStage pvs labels p) k = dictGet p k := by
  unfold acceleratorStage
  split
  · split
    · exact dictGet_dictSet_ne _ _ _ _ (Ne.symm h)
    · rfl
  · rfl

theorem dictGet_acceleratorStage_self (pvs : List PyVal)
    {es : List (String × String)} {h t' : String} (p : PyDict)
    (hh : labelsGet es "hostname" = some h)
    (ht : labelsGet es "accelerator_type" = some t') :
    dictGet (acceleratorStage pvs (PyVal.dictV es) p) "accelerator_labels"
      = some (PyVal.listV ((List.range pvs.length).map
          (fun i => PyVal.strV (h ++ "-" ++ t' ++ toString i)))) := by
  have hcond : (pyTruthy (PyVal.dictV es)
      && (labelsGet es "hostname").isSome
      && (labelsGet es "accelerator_type").isSome) = true := by
    rw [hh, ht]
    simp [pyTruthy, labelsGet_isEmpty_false hh]
  simp only [acceleratorStage]
  rw [if_pos hcond, dictGet_dictSet_self]
  simp only [hh, ht, Option.getD_some]

theorem dictGet_stepStage_ne (step : PyVal) (p : PyDict) (k : String)
    (h : k ≠ "step_index") : dictGet (stepStage step p) k = dictGet p k := by
  unfold stepStage
  split
  · exact dictGet_dictSet_ne _ _ _ _ (Ne.symm h)
  · rfl

theorem dictGet_stepStage_self (step : PyVal) (p : PyDict)
    (h : pyIsNone step = false) :
    dictGet (stepStage step p) "step_index" = some step := by
  unfold stepStage
  rw [h]
  simp [dictGet_dictSet_self]

theorem dictGet_labelsStage_notMem {es : List (String × String)}
    (p : PyDict) {k : String} (h : labelsGet es k = Option.none) :
    dictGet (labelsStage (PyVal.dictV es) p) k = dictGet p k := by
  simp only [labelsStage]
  split
  · exact dictGet_dictUpdate_notMem _ h
  · rfl

theorem dictGet_labelsStage_mem {es : List (String × String)} (p : PyDict)
    {k w : String} (hnd : (es.map Prod.fst).Nodup)
    (h : labelsGet es k = some w) :
    dictGet (labelsStage (PyVal.dictV es) p) k = some (PyVal.strV w) := by
  simp only [labelsStage]
  rw [if_pos (show pyTruthy (PyVal.dictV es) = true by
    simp [pyTruthy, labelsGet_isEmpty_false h])]
  exact dictGet_dictUpdate_mem _ hnd h

/- ## `buildEntry` characterization lemmas -/

theorem buildEntry_ok_some {pid rid loc : String} {t : Nat} {m : PyDict}
    {name value : PyVal} {pvs : List PyVal}
    (hname : dictGet m "metric_name" = some name)
    (hval : dictGet m "value" = some value)
    (hpv : normalizeValues value = some pvs) :
    buildEntry pid rid loc t m = Except.ok (some
      { payload := payloadOf pvs ((dictGet m "step").getD PyVal.noneV)
            ((dictGet m "labels").getD PyVal.noneV)
        severity := "INFO"
        timestamp := t
        resource :=
          { resType := "generic_node"
            project_id := pid
            location := loc
            nsLabel := name
            node_id := rid } }) := by
  simp only [buildEntry, hname, hval, hpv]

theorem buildEntry_skip {pid rid loc : String} {t : Nat} {m : PyDict}
    {name value : PyVal}
    (hname : dictGet m "metric_name" = some name)
    (hval : dictGet m "value" = some value)
    (hpv : normalizeValues value = Option.none) :
    buildEntry pid rid loc t m = Except.ok Option.none := by
  simp only [buildEntry, hname, hval, hpv]

theorem buildEntry_fields {pid rid loc : String} {t : Nat} {m : PyDict}
    {e : LogEntry} (h : buildEntry pid rid loc t m = Except.ok (some e)) :
    e.severity = "INFO" ∧ e.timestamp = t := by
  unfold buildEntry at h
  split at h
  · exact Except.noConfusion h
  · split at h
    · exact Except.noConfusion h
    · split at h
      · exact Option.noConfusion (Except.ok.inj h)
      · injection h with h
        injection h with h
        exact ⟨congrArg LogEntry.severity h.symm,
               congrArg LogEntry.timestamp h.symm⟩

/- ## `buildEntries` lemmas -/

theorem buildEntries_ok_count (pid rid loc : String) (t : Nat)
    (ms : List PyDict)
    (hkeys : ∀ m ∈ ms, (dictGet m "metric_name").isSome
        ∧ (dictGet m "value").isSome) :
    ∃ es, buildEntries pid rid loc t ms = Except.ok es ∧
      es.length = ms.countP (fun m =>
        (normalizeValues ((dictGet m "value").getD PyVal.noneV)).isSome) := by
  induction ms with
  | nil => exact ⟨[], rfl, rfl⟩
  | cons a as ih =>
    obtain ⟨hn, hv⟩ := hkeys a (List.mem_cons_self a as)
    obtain ⟨name, hname⟩ := Option.isSome_iff_exists.mp hn
    obtain ⟨value, hval⟩ := Option.isSome_iff_exists.mp hv
    obtain ⟨es, hes, hlen⟩ :=
      ih (fun m hm => hkeys m (List.mem_cons_of_mem _ hm))
    cases hpv : normalizeValues value with
    | none =>
      refine ⟨es, ?_, ?_⟩
      · simp only [buildEntries]
        rw [buildEntry_skip hname hval hpv, hes]
      · simp [List.countP_cons, hval, hpv, hlen]
    | some pvs =>
      obtain ⟨e0, hbe⟩ :
          ∃ e0, buildEntry pid rid loc t a = Except.ok (some e0) :=
        ⟨_, buildEntry_ok_some hname hval hpv⟩
      refine ⟨e0 :: es, ?_, ?_⟩
      · simp only [buildEntries]
        rw [hbe, hes]
      · simp [List.countP_cons, hval, hpv, hlen]

theorem buildEntries_fields (pid rid loc : String) (t : Nat) :
    ∀ (ms : List PyDict) (es : List LogEntry),
      buildEntries pid rid loc t ms = Except.ok es →
      ∀ e ∈ es, e.severity = "INFO" ∧ e.timestamp = t := by
  intro ms
  induction ms with
  | nil =>
    intro es h e he
    injection h with h
    subst h
    exact absurd he (List.not_mem_nil e)
  | cons a as ih =>
    intro es h e he
    unfold buildEntries at h
    cases hbe : buildEntry pid rid loc t a with
    | error c =>
      rw [hbe] at h
      exact Except.noConfusion h
    | ok e? =>
      rw [hbe] at h
      cases hrest : buildEntries pid rid loc t as with
      | error c =>
        rw [hrest] at h
        exact Except.noConfusion h
      | ok rest =>
        rw [hrest] at h
        injection h with h
        cases e? with
        | none =>
          subst h
          exact ih rest hrest e he
        | some e0 =>
          subst h
          rcases List.mem_cons.mp he with rfl | hmem
          · exact buildEntry_fields hbe
          · exact ih rest hrest e hmem

theorem buildEntries_error_of_missing_key (pid rid loc : String) (t : Nat) :
    ∀ (ms : List PyDict) (m : PyDict), m ∈ ms →
      (dictGet m "metric_name" = Option.none
        ∨ dictGet m "value" = Option.none) →
      ∃ c, buildEntries pid rid loc t ms = Except.error c := by
  intro ms
  induction ms with
  | nil =>
    intro m hm _
    exact absurd hm (List.not_mem_nil m)
  | cons a as ih =>
    intro m hm hbad
    rcases List.mem_cons.mp hm with rfl | hmem
    · have herr : ∃ c, buildEntry pid rid loc t m = Except.error c := by
        rcases hbad with hb | hb
        · exact ⟨"KeyError: metric_name", by unfold buildEntry; rw [hb]⟩
        · cases hn : dictGet m "metric_name" with
          | none =>
            exact ⟨"KeyError: metric_name", by unfold buildEntry; rw [hn]⟩
          | some nm =>
            exact ⟨"KeyError: value", by unfold buildEntry; rw [hn, hb]⟩
      obtain ⟨c, hc⟩ := herr
      exact ⟨c, by unfold buildEntries; rw [hc]⟩
    · cases hbe : buildEntry pid rid loc t a with
      | error c => exact ⟨c, by unfold buildEntries; rw [hbe]⟩
      | ok e? =>
        obtain ⟨c, hc⟩ := ih m hmem hbad
        exact ⟨c, by unfold buildEntries; rw [hbe, hc]⟩

/- ## Claim theorems for `write_metrics` -/

/-- **C1**, counterexample: `["not a number"]` is neither a numeric scalar
nor a sequence of numeric scalars, yet `write_metrics` does not skip it —
the shape test at lines 144–148 only checks that the top-level value is an
`int`, `float` or `list` and never inspects list elements, so this record
produces an entry (1 entry, not the 0 the claim requires). -/
theorem C1_skip_counterexample :
    isNumericScalar (PyVal.listV [PyVal.strV "not a number"]) = false ∧
    isNumericScalarSeq (PyVal.listV [PyVal.strV "not a number"]) = false ∧
    (persistedEntries (write_metrics "p"
        [[("metric_name", PyVal.strV "m"),
          ("value", PyVal.listV [PyVal.strV "not a number"])]]
        "r" "l" 0 true)).length = 1 :=
  ⟨rfl, rfl, rfl⟩

/-- **C1** amended: the bad-shape test is on the top-level type only.  A
record whose value is not an `int`, `float` or `list` is skipped (with a
warning) and produces no entry, while list values pass through without any
element check; every record of accepted top-level shape still produces its
entry and no error is raised for the batch, so a batch of N records — each
carrying the `metric_name` and `value` keys — yields one entry per
accepted-shape record (N-1 entries when exactly one record has an
unaccepted top-level shape). -/
theorem C1_skip_on_bad_shape (pid rid loc : String) (t : Nat)
    (ms : List PyDict)
    (hkeys : ∀ m ∈ ms, (dictGet m "metric_name").isSome
        ∧ (dictGet m "value").isSome) :
    ∃ es, write_metrics pid ms rid loc t true = Except.ok (es, ms.length) ∧
      es.length = ms.countP (fun m =>
        (normalizeValues ((dictGet m "value").getD PyVal.noneV)).isSome)
    := by
  obtain ⟨es, hes, hlen⟩ := buildEntries_ok_count pid rid loc t ms hkeys
  refine ⟨es, ?_, hlen⟩
  unfold write_metrics
  rw [hes]
  rfl

/-- Witness for `C1_skip_on_bad_shape`: a batch of 3 records where exactly
one has value `"not a number"` reports success for the whole batch and
writes exactly 2 entries. -/
theorem C1_skip_on_bad_shape_witness :
    reportedCount (write_metrics "p"
        [[("metric_name", PyVal.strV "a"),
          ("value", PyVal.strV "not a number")],
         [("metric_name", PyVal.strV "b"), ("value", PyVal.intV 1)],
         [("metric_name", PyVal.strV "c"), ("value", PyVal.intV 2)]]
        "r" "l" 0 true) = some 3 ∧
    (persistedEntries (write_metrics "p"
        [[("metric_name", PyVal.strV "a"),
          ("value", PyVal.strV "not a number")],
         [("metric_name", PyVal.strV "b"), ("value", PyVal.intV 1)],
         [("metric_name", PyVal.strV "c"), ("value", PyVal.intV 2)]]
        "r" "l" 0 true)).length = 2 := by
  obtain ⟨es, hw, hlen⟩ := C1_skip_on_bad_shape "p" "r" "l" 0
    [[("metric_name", PyVal.strV "a"), ("value", PyVal.strV "not a number")],
     [("metric_name", PyVal.strV "b"), ("value", PyVal.intV 1)],
     [("metric_name", PyVal.strV "c"), ("value", PyVal.intV 2)]]
    (by
      intro m hm
      simp only [List.mem_cons, List.not_mem_nil, or_false] at hm
      rcases hm with rfl | rfl | rfl <;> exact ⟨rfl, rfl⟩)
  constructor
  · rw [hw]
    rfl
  · rw [hw]
    exact hlen

/-- **C5**, counterexample: a record whose labels contain `hostname`,
`accelerator_type` **and** a label literally named `accelerator_labels`
ends with that label's string in the payload's `accelerator_labels` slot —
`payload.update(labels)` runs last and overwrites the derived list — so the
built payload's `accelerator_labels` is not the derived per-sample list the
claim requires. -/
theorem C5_accelerator_labels_counterexample :
    labelsGet [("hostname", "h"), ("accelerator_type", "t"),
        ("accelerator_labels", "zap")] "hostname" = some "h" ∧
    labelsGet [("hostname", "h"), ("accelerator_type", "t"),
        ("accelerator_labels", "zap")] "accelerator_type" = some "t" ∧
    dictGet (entryPayload (buildEntry "p" "r" "l" 0
        [("metric_name", PyVal.strV "m"),
         ("value", PyVal.listV [PyVal.intV 10, PyVal.intV 20, PyVal.intV 30]),
         ("labels", PyVal.dictV [("hostname", "h"), ("accelerator_type", "t"),
             ("accelerator_labels", "zap")])]))
        "accelerator_labels" = some (PyVal.strV "zap") ∧
    PyVal.strV "zap"
      ≠ PyVal.listV [PyVal.strV "h-t0", PyVal.strV "h-t1", PyVal.strV "h-t2"]
    := by
  refine ⟨rfl, rfl, rfl, ?_⟩
  intro h
  exact PyVal.noConfusion h

/-- **C5** amended: for every record whose labels map contains `hostname`
(value `h`) and `accelerator_type` (value `t`) and does not itself contain
a key named `accelerator_labels`, the built payload's `accelerator_labels`
equals `["h-t0", "h-t1", ...]`, one string per 0-based index into that
record's normalized values list (a colliding label key would overwrite the
derived list, since labels are merged last). -/
theorem C5_accelerator_labels (pid rid loc : String) (t : Nat) (m : PyDict)
    {name value : PyVal} {pvs : List PyVal} {es : List (String × String)}
    {h t' : String}
    (hname : dictGet m "metric_name" = some name)
    (hval : dictGet m "value" = some value)
    (hpv : normalizeValues value = some pvs)
    (hlab : dictGet m "labels" = some (PyVal.dictV es))
    (hh : labelsGet es "hostname" = some h)
    (ht : labelsGet es "accelerator_type" = some t')
    (hno : labelsGet es "accelerator_labels" = Option.none) :
    ∃ e, buildEntry pid rid loc t m = Except.ok (some e) ∧
      dictGet e.payload "accelerator_labels"
        = some (PyVal.listV ((List.range pvs.length).map
            (fun i => PyVal.strV (h ++ "-" ++ t' ++ toString i)))) := by
  refine ⟨_, buildEntry_ok_some hname hval hpv, ?_⟩
  show dictGet (payloadOf pvs ((dictGet m "step").getD PyVal.noneV)
      ((dictGet m "labels").getD PyVal.noneV)) "accelerator_labels" = _
  rw [hlab]
  simp only [Option.getD_some, payloadOf]
  rw [dictGet_labelsStage_notMem _ hno,
      dictGet_stepStage_ne _ _ _ (by decide),
      dictGet_acceleratorStage_self pvs _ hh ht]

/-- Witness for `C5_accelerator_labels` at the claim's own instance:
`value = [10, 20, 30]`, `labels = {hostname: "h", accelerator_type: "t"}`
yields `accelerator_labels == ["h-t0", "h-t1", "h-t2"]`. -/
theorem C5_accelerator_labels_witness :
    dictGet (entryPayload (buildEntry "p" "r" "l" 0
        [("metric_name", PyVal.strV "m"),
         ("value", PyVal.listV [PyVal.intV 10, PyVal.intV 20, PyVal.intV 30]),
         ("labels", PyVal.dictV
             [("hostname", "h"), ("accelerator_type", "t")])]))
      "accelerator_labels"
      = some (PyVal.listV
          [PyVal.strV "h-t0", PyVal.strV "h-t1", PyVal.strV "h-t2"]) := by
  obtain ⟨e, he, hal⟩ := C5_accelerator_labels "p" "r" "l" 0
    [("metric_name", PyVal.strV "m"),
     ("value", PyVal.listV [PyVal.intV 10, PyVal.intV 20, PyVal.intV 30]),
     ("labels", PyVal.dictV [("hostname", "h"), ("accelerator_type", "t")])]
    rfl rfl rfl rfl rfl rfl rfl
  rw [he]
  exact hal

/-- **C6**, counterexample: a record with labels `{"values": "oops"}` has
that label merged last, overwriting the derived `values` key, so the
derived payload keys do not always retain their computed contents. -/
theorem C6_label_flattening_counterexample :
    dictGet (entryPayload (buildEntry "p" "r" "l" 0
        [("metric_name", PyVal.strV "m"), ("value", PyVal.intV 1),
         ("labels", PyVal.dictV [("values", "oops")])])) "values"
      = some (PyVal.strV "oops") ∧
    PyVal.strV "oops" ≠ PyVal.listV [PyVal.intV 1] := by
  refine ⟨rfl, ?_⟩
  intro h
  exact PyVal.noConfusion h

/-- **C6** amended: every label key/value pair of a record's labels map
appears verbatim as a top-level key of the built payload; the derived keys
(`values`; `step_index` when step is present) retain their computed
contents provided no label key collides with them — labels are merged
last, so a colliding label key overwrites the derived entry. -/
theorem C6_label_flattening (pid rid loc : String) (t : Nat) (m : PyDict)
    {name value : PyVal} {pvs : List PyVal} {es : List (String × String)}
    (hname : dictGet m "metric_name" = some name)
    (hval : dictGet m "value" = some value)
    (hpv : normalizeValues value = some pvs)
    (hlab : dictGet m "labels" = some (PyVal.dictV es))
    (hnd : (es.map Prod.fst).Nodup) :
    ∃ e, buildEntry pid rid loc t m = Except.ok (some e) ∧
      (∀ k w, labelsGet es k = some w →
        dictGet e.payload k = some (PyVal.strV w)) ∧
      (labelsGet es "values" = Option.none →
        dictGet e.payload "values" = some (PyVal.listV pvs)) ∧
      (∀ sv, dictGet m "step" = some sv → pyIsNone sv = false →
        labelsGet es "step_index" = Option.none →
        dictGet e.payload "step_index" = some sv) := by
  refine ⟨_, buildEntry_ok_some hname hval hpv, ?_, ?_, ?_⟩
  · intro k w hk
    show dictGet (payloadOf pvs ((dictGet m "step").getD PyVal.noneV)
        ((dictGet m "labels").getD PyVal.noneV)) k = _
    rw [hlab]
    simp only [Option.getD_some, payloadOf]
    exact dictGet_labelsStage_mem _ hnd hk
  · intro hnv
    show dictGet (payloadOf pvs ((dictGet m "step").getD PyVal.noneV)
        ((dictGet m "labels").getD PyVal.noneV)) "values" = _
    rw [hlab]
    simp only [Option.getD_some, payloadOf]
    rw [dictGet_labelsStage_notMem _ hnv,
        dictGet_stepStage_ne _ _ _ (by decide),
        dictGet_acceleratorStage_ne _ _ _ _ (by decide)]
    rfl
  · intro sv hsv hnn hni
    show dictGet (payloadOf pvs ((dictGet m "step").getD PyVal.noneV)
        ((dictGet m "labels").getD PyVal.noneV)) "step_index" = _
    rw [hlab, hsv]
    simp only [Option.getD_some, payloadOf]
    rw [dictGet_labelsStage_notMem _ hni, dictGet_stepStage_self _ _ hnn]

/-- Witness for `C6_label_flattening` at a concrete record with labels
`{"env": "prod"}`, value `5` and step `3`. -/
theorem C6_label_flattening_witness :
    dictGet (entryPayload (buildEntry "p" "r" "l" 0
        [("metric_name", PyVal.strV "m"), ("value", PyVal.intV 5),
         ("step", PyVal.intV 3),
         ("labels", PyVal.dictV [("env", "prod")])])) "env"
      = some (PyVal.strV "prod") ∧
    dictGet (entryPayload (buildEntry "p" "r" "l" 0
        [("metric_name", PyVal.strV "m"), ("value", PyVal.intV 5),
         ("step", PyVal.intV 3),
         ("labels", PyVal.dictV [("env", "prod")])])) "values"
      = some (PyVal.listV [PyVal.intV 5]) ∧
    dictGet (entryPayload (buildEntry "p" "r" "l" 0
        [("metric_name", PyVal.strV "m"), ("value", PyVal.intV 5),
         ("step", PyVal.intV 3),
         ("labels", PyVal.dictV [("env", "prod")])])) "step_index"
      = some (PyVal.intV 3) := by
  obtain ⟨e, he, ha, hb, hc⟩ := C6_label_flattening "p" "r" "l" 0
    [("metric_name", PyVal.strV "m"), ("value", PyVal.intV 5),
     ("step", PyVal.intV 3), ("labels", PyVal.dictV [("env", "prod")])]
    rfl rfl rfl rfl (by simp)
  refine ⟨?_, ?_, ?_⟩ <;> rw [he]
  · exact ha "env" "prod" rfl
  · exact hb rfl
  · exact hc (PyVal.intV 3) rfl rfl rfl

/-- **C7** (atomicity): on any failure — an exception during batch
construction or a sink failure at the flush — `write_metrics` surfaces
exactly one aggregate error whose message wraps the underlying cause, and
zero entries are observably persisted (the batch scope discards on
abnormal exit). -/
theorem C7_batch_atomicity (pid rid loc : String) (t : Nat)
    (ms : List PyDict) (flushOk : Bool)
    (h : (∃ c, buildEntries pid rid loc t ms = Except.error c)
        ∨ flushOk = false) :
    (∃ cause, write_metrics pid ms rid loc t flushOk
        = Except.error
            ("Failed to write metrics batch to Cloud Logging: " ++ cause)) ∧
    persistedEntries (write_metrics pid ms rid loc t flushOk) = [] := by
  rcases h with ⟨c, hc⟩ | rfl
  · refine ⟨⟨c, ?_⟩, ?_⟩
    · unfold write_metrics
      rw [hc]
    · unfold write_metrics persistedEntries
      rw [hc]
  · cases hes : buildEntries pid rid loc t ms with
    | error c =>
      refine ⟨⟨c, ?_⟩, ?_⟩
      · unfold write_metrics
        rw [hes]
      · unfold write_metrics persistedEntries
        rw [hes]
    | ok es =>
      refine ⟨⟨"flush failed", ?_⟩, ?_⟩
      · unfold write_metrics
        rw [hes]
        rfl
      · unfold write_metrics persistedEntries
        rw [hes]
        rfl

/-- Witness for `C7_batch_atomicity`: a flush failure on a well-formed
one-record batch reports no count and persists nothing. -/
theorem C7_batch_atomicity_witness :
    reportedCount (write_metrics "p"
        [[("metric_name", PyVal.strV "m"), ("value", PyVal.intV 1)]]
        "r" "l" 0 false) = Option.none ∧
    persistedEntries (write_metrics "p"
        [[("metric_name", PyVal.strV "m"), ("value", PyVal.intV 1)]]
        "r" "l" 0 false) = [] := by
  have h := C7_batch_atomicity "p" "r" "l" 0
    [[("metric_name", PyVal.strV "m"), ("value", PyVal.intV 1)]] false
    (Or.inr rfl)
  refine ⟨?_, h.2⟩
  obtain ⟨c, hc⟩ := h.1
  rw [hc]
  rfl

/-- **C8**: the success log line reports `len(metrics)` — the input batch
size — not the number of entries actually written.  At the batch
`[{"metric_name": "m1", "value": "not a number"},
{"metric_name": "m2", "value": 1}]` the first record is skipped: only one
entry is written, yet the reported count is 2, contradicting the log
message's own wording ("Successfully written %d metrics"). -/
theorem C8_reported_count_bug :
    reportedCount (write_metrics "p"
        [[("metric_name", PyVal.strV "m1"),
          ("value", PyVal.strV "not a number")],
         [("metric_name", PyVal.strV "m2"), ("value", PyVal.intV 1)]]
        "r" "l" 0 true) = some 2 ∧
    (persistedEntries (write_metrics "p"
        [[("metric_name", PyVal.strV "m1"),
          ("value", PyVal.strV "not a number")],
         [("metric_name", PyVal.strV "m2"), ("value", PyVal.intV 1)]]
        "r" "l" 0 true)).length = 1 :=
  ⟨rfl, rfl⟩

/-- **C9**: every entry of a successfully written batch carries severity
`INFO` and the batch's single capture timestamp, taken once before any
entry is built. -/
theorem C9_batch_timestamp_severity (pid rid loc : String) (t : Nat)
    (ms : List PyDict) (flushOk : Bool) (es : List LogEntry) (n : Nat)
    (hw : write_metrics pid ms rid loc t flushOk = Except.ok (es, n)) :
    ∀ e ∈ es, e.severity = "INFO" ∧ e.timestamp = t := by
  unfold write_metrics at hw
  cases hbe : buildEntries pid rid loc t ms with
  | error c =>
    rw [hbe] at hw
    exact Except.noConfusion hw
  | ok es' =>
    rw [hbe] at hw
    cases flushOk with
    | false => exact Except.noConfusion hw
    | true =>
      injection hw with hw
      have hes : es' = es := congrArg Prod.fst hw
      subst hes
      exact buildEntries_fields pid rid loc t ms es' hbe

/-- Witness for `C9_batch_timestamp_severity`: the single entry of the
batch `[{"metric_name": "m", "value": 1}]` captured at time 42 has
severity `INFO` and timestamp 42. -/
theorem C9_batch_timestamp_severity_witness :
    sampleEntry.severity = "INFO" ∧ sampleEntry.timestamp = 42 :=
  C9_batch_timestamp_severity "p" "r" "l" 42
    [[("metric_name", PyVal.strV "m"), ("value", PyVal.intV 1)]] true
    [sampleEntry] 1 rfl sampleEntry (List.mem_singleton.mpr rfl)

/-- **C10**: a batch containing a metric dict that lacks `metric_name` or
`value` raises a `KeyError` inside the batch scope — caught and wrapped
into a single `MLDiagnosticError` — so the whole call fails and none of the
batch's entries are observably persisted; a missing key is not skipped the
way an unsupported value shape is. -/
theorem C10_missing_key_fails (pid rid loc : String) (t : Nat)
    (ms : List PyDict) (flushOk : Bool) (m : PyDict) (hm : m ∈ ms)
    (hbad : dictGet m "metric_name" = Option.none
        ∨ dictGet m "value" = Option.none) :
    (∃ cause, write_metrics pid ms rid loc t flushOk
        = Except.error
            ("Failed to write metrics batch to Cloud Logging: " ++ cause)) ∧
    persistedEntries (write_metrics pid ms rid loc t flushOk) = [] := by
  obtain ⟨c, hc⟩ :=
    buildEntries_error_of_missing_key pid rid loc t ms m hm hbad
  refine ⟨⟨c, ?_⟩, ?_⟩
  · unfold write_metrics
    rw [hc]
  · unfold write_metrics persistedEntries
    rw [hc]

/-- Witness for `C10_missing_key_fails`: a one-record batch whose dict has
no `value` key reports no success count and persists nothing. -/
theorem C10_missing_key_fails_witness :
    reportedCount (write_metrics "p" [[("metric_name", PyVal.strV "m")]]
        "r" "l" 0 true) = Option.none ∧
    persistedEntries (write_metrics "p" [[("metric_name", PyVal.strV "m")]]
        "r" "l" 0 true) = [] := by
  have h := C10_missing_key_fails "p" "r" "l" 0
    [[("metric_name", PyVal.strV "m")]] true
    [("metric_name", PyVal.strV "m")] (List.mem_singleton.mpr rfl)
    (Or.inr rfl)
  refine ⟨?_, h.2⟩
  obtain ⟨c, hc⟩ := h.1
  rw [hc]
  rfl

end MLDiag
